import Mathlib

/-!
# Call queue of `v8_single_threaded` (main.cpp)

A shallow embedding of `class CallQueue` (main.cpp, lines 29-118): the record
type `CallInfo`, the three `append` overloads, the private `next`, and the
drain loop `operator()(v8::Isolate*)`.

The script engine is not part of the repository.  It is a parameter of the
model: `Engine.Get` stands for
`v8::Local<v8::Function>::Cast(global->Get(name))` (with `none` for a handle on
which `IsEmpty()` is true) and `Engine.Call` for `function->Call(global, n, argv)`
(with `retn = none` for an empty result handle, which is how the engine reports
a script exception to its embedder).

What `Get` answers for a name the global object lacks is the engine's affair;
`v8Engine` below is an engine that answers as the V8 API does.

`std::function` fields are Lean functions.  Such a closure may change the world
state, may call the public `append` of the global queue, and may throw a C++
exception; it has no other access to the queue (`m_queue` is private).  A
closure that re-enters the drain itself is outside this model.
-/

namespace CallQueue

/-- C++ exceptions that can leave the drain loop: `std::bad_function_call`
(calling an empty `std::function`) or anything a closure throws itself. -/
inductive Exn where
  | bad_function_call
  | thrown (what : String)
  deriving DecidableEq, Repr

/-- What running a host closure does: its result or the exception it throws, the
world state it leaves, and the records it passed to `append` meanwhile. -/
structure Effect (C W R : Type) where
  result : Except Exn R
  world : W
  appended : List C

/-- The record type `struct CallInfo` (lines 32-40).  An empty `std::function` is
`none`. -/
inductive CallInfo (W V : Type) where
  | mk (name : String)
       (args : Option (W → Effect (CallInfo W V) W (List V)))
       (callback : Option (V → W → Effect (CallInfo W V) W Unit))

namespace CallInfo

variable {W V : Type}

/-- Field `name` (line 37). -/
def name : CallInfo W V → String
  | mk n _ _ => n

/-- Field `args` (line 38). -/
def args : CallInfo W V → Option (W → Effect (CallInfo W V) W (List V))
  | mk _ a _ => a

/-- Field `callback` (line 39). -/
def callback : CallInfo W V → Option (V → W → Effect (CallInfo W V) W Unit)
  | mk _ _ c => c

end CallInfo

/-- The value-initialised record `CallInfo()`: empty name, both `std::function`
fields empty. -/
def CallInfo.empty {W V : Type} : CallInfo W V := CallInfo.mk "" none none

/-- What `function->Call` does: the result handle (`none` when it is empty), the
world state after the callee ran, and the records the callee appended. -/
structure CallResult (C W V : Type) where
  retn : Option V
  world : W
  appended : List C

/-- The script engine, as the drain loop uses it. -/
structure Engine (W V F : Type) where
  Get : W → String → Option F
  Call : F → List V → W → CallResult (CallInfo W V) W V

/-- What the drain does to the engine and to the closures, in order. -/
inductive Event (V F : Type) where
  | lookup (name : String)
  | supply (name : String)
  | call (name : String) (function : F) (data : List V) (retn : Option V)
  | callback (name : String) (v : V)

variable {W V F : Type}

/-- `append(name)` (lines 42-50) on the queue contents. -/
def append (m_queue : List (CallInfo W V)) (name : String) : List (CallInfo W V) :=
  m_queue ++ [CallInfo.mk name none none]

/-- `append(name, args)` (lines 52-61) on the queue contents. -/
def append₂ (m_queue : List (CallInfo W V)) (name : String)
    (args : W → Effect (CallInfo W V) W (List V)) : List (CallInfo W V) :=
  m_queue ++ [CallInfo.mk name (some args) none]

/-- `append(name, args, callback)` (lines 63-73) on the queue contents.  Either
`std::function` argument may itself be empty. -/
def append₃ (m_queue : List (CallInfo W V)) (name : String)
    (args : Option (W → Effect (CallInfo W V) W (List V)))
    (callback : Option (V → W → Effect (CallInfo W V) W Unit)) : List (CallInfo W V) :=
  m_queue ++ [CallInfo.mk name args callback]

/-- `next(c)` (lines 106-117): the returned flag, the value left in `c`, and the
queue contents afterwards.  `front()` is the head of the list and `pop()` drops
it. -/
def next (m_queue : List (CallInfo W V)) : Bool × CallInfo W V × List (CallInfo W V) :=
  if m_queue.isEmpty then (false, CallInfo.empty, m_queue)
  else (true, m_queue.headD CallInfo.empty, m_queue.tail)

/-- One pass through the loop body (lines 84-99) for the popped record. -/
structure Step (W V F : Type) where
  raised : Option Exn
  world : W
  appended : List (CallInfo W V)
  events : List (Event V F)

/-- The loop body of `operator()` (lines 84-99) for the popped record `cs`. -/
def body (E : Engine W V F) (cs : CallInfo W V) (w : W) : Step W V F :=
  match E.Get w cs.name with
  | none => ⟨none, w, [], [.lookup cs.name]⟩
  | some function =>
    match cs.args with
    | none => ⟨some .bad_function_call, w, [], [.lookup cs.name]⟩
    | some supplier =>
      let a := supplier w
      match a.result with
      | .error e => ⟨some e, a.world, a.appended, [.lookup cs.name, .supply cs.name]⟩
      | .ok data =>
        let r := if data.length = 0 then E.Call function [] a.world
                 else E.Call function data a.world
        match r.retn, cs.callback with
        | some v, some cb =>
          let c := cb v r.world
          ⟨(match c.result with
              | .error e => some e
              | .ok _ => none),
            c.world, a.appended ++ r.appended ++ c.appended,
            [.lookup cs.name, .supply cs.name, .call cs.name function data r.retn,
             .callback cs.name v]⟩
        | _, _ =>
          ⟨none, r.world, a.appended ++ r.appended,
            [.lookup cs.name, .supply cs.name, .call cs.name function data r.retn]⟩

/-- The queue, the world the engine and the closures act on, and the events so
far. -/
structure State (W V F : Type) where
  queue : List (CallInfo W V)
  world : W
  trace : List (Event V F)

/-- How a drain ends: it returns, an exception leaves it, or the model's fuel ran
out while the loop was still running. -/
inductive Outcome where
  | returned
  | raised (e : Exn)
  | outOfFuel
  deriving DecidableEq, Repr

/-- The drain `operator()(isolate)` (lines 75-101): `while (next(cs)) body`, with
one unit of fuel per evaluation of the loop condition. -/
def drain (E : Engine W V F) : Nat → State W V F → Outcome × State W V F
  | 0, st => (.outOfFuel, st)
  | fuel + 1, st =>
    match next st.queue with
    | (false, _, q) => (.returned, ⟨q, st.world, st.trace⟩)
    | (true, cs, q) =>
      let s := body E cs st.world
      let st' : State W V F := ⟨q ++ s.appended, s.world, st.trace ++ s.events⟩
      match s.raised with
      | some e => (.raised e, st')
      | none => drain E fuel st'

/-- The loop body applied to the records of `rs` one after the other, starting in
world `w`, up to and including the first one that raises: the exception if any,
the world reached, every record appended meanwhile and every event. -/
def runRecords (E : Engine W V F) : List (CallInfo W V) → W → Step W V F
  | [], w => ⟨none, w, [], []⟩
  | c :: rs, w =>
    let s := body E c w
    match s.raised with
    | some e => ⟨some e, s.world, s.appended, s.events⟩
    | none =>
      let t := runRecords E rs s.world
      ⟨t.raised, t.world, s.appended ++ t.appended, s.events ++ t.events⟩

/-- Names of the records whose callee was looked up, in order. -/
def lookups : List (Event V F) → List String
  | [] => []
  | .lookup n :: es => n :: lookups es
  | _ :: es => lookups es

/-- The value a handle returned by `global->Get` refers to, as far as the drain
can tell: a function of the script, or `undefined`, which is what the V8 API gives
for a property the object lacks. -/
inductive Handle (Fn : Type) where
  | undefined
  | function (f : Fn)

/-- An engine that answers as the V8 API does.  `scope` tells which names the
global object defines as functions.  `Get` of any other name is the value
`undefined`, in a handle that is not empty, and `Local<Function>::Cast` does not
test what it casts, so line 84 never yields an empty handle.  What calling a
value that is not a function does is left to `call`. -/
def v8Engine {Fn : Type} (scope : W → String → Option Fn)
    (call : Handle Fn → List V → W → CallResult (CallInfo W V) W V) :
    Engine W V (Handle Fn) where
  Get := fun w n =>
    some (match scope w n with
          | some f => .function f
          | none => .undefined)
  Call := call

/-- A mutex operation or an access to `m_queue`, in program order. -/
inductive Access where
  | lock
  | unlock
  | push
  | empty
  | front
  | pop
  deriving DecidableEq, Repr

/-- Mutex operations and queue accesses of each `append` overload (lines 44-50,
54-61, 65-73): the `std::lock_guard` is taken first and released at the end of
the scope, the `push` is in between. -/
def appendAccesses : List Access := [.lock, .push, .unlock]

/-- Mutex operations and queue accesses of `next` (lines 106-117) on the given
queue contents: `empty()`, and on a non-empty queue `front()` and `pop()`.  No
`std::lock_guard` is constructed there. -/
def nextAccesses (m_queue : List (CallInfo W V)) : List Access :=
  if m_queue.isEmpty then [.empty] else [.empty, .front, .pop]

/-- Whether every access to `m_queue` in the list is made with the mutex held,
`held` telling whether it is held at the start. -/
def allGuarded : Bool → List Access → Bool
  | _, [] => true
  | _, .lock :: as => allGuarded true as
  | _, .unlock :: as => allGuarded false as
  | held, _ :: as => held && allGuarded held as

/-! ## A concrete engine and concrete closures -/

namespace Example

/-- The callees run so far, in order, and a slot a result callback writes to. -/
structure World where
  ran : List String
  slot : Option Nat
  deriving DecidableEq, Repr

/-- A record type over that world, values being numbers. -/
abbrev Rec := CallInfo World Nat

/-- A supplier of no arguments. -/
def noArgs : World → Effect Rec World (List Nat) :=
  fun w => ⟨.ok [], w, []⟩

/-- A supplier of the arguments 5 and 7. -/
def twoArgs : World → Effect Rec World (List Nat) :=
  fun w => ⟨.ok [5, 7], w, []⟩

/-- A supplier that throws. -/
def badArgs : World → Effect Rec World (List Nat) :=
  fun w => ⟨.error (.thrown "args"), w, []⟩

/-- A result callback that writes the value to the slot. -/
def store : Nat → World → Effect Rec World Unit :=
  fun v w => ⟨.ok (), ⟨w.ran, some v⟩, []⟩

/-- An engine whose global scope defines `f`, `g`, `boom` and `spawn`.  Every
callee notes that it ran.  `boom` raises a script exception (empty result), the
others return the sum of their arguments, and `spawn` appends a call of `g`. -/
def engine : Engine World Nat String where
  Get := fun _ n => if n = "f" ∨ n = "g" ∨ n = "boom" ∨ n = "spawn" then some n else none
  Call := fun f data w =>
    ⟨if f = "boom" then none else some data.sum,
     ⟨w.ran ++ [f], w.slot⟩,
     if f = "spawn" then [CallInfo.mk "g" (some twoArgs) none] else []⟩

/-- The world before anything ran. -/
def w₀ : World := ⟨[], none⟩

/-- A call of `f` with two arguments whose result goes to the slot. -/
def rF : Rec := .mk "f" (some twoArgs) (some store)

/-- A call of `g` with two arguments, the result being dropped. -/
def rG : Rec := .mk "g" (some twoArgs) none

/-- A call of `boom`, with a result callback. -/
def rBoom : Rec := .mk "boom" (some noArgs) (some store)

/-- A call of `spawn`. -/
def rSpawn : Rec := .mk "spawn" (some noArgs) none

/-- A call of `f` whose argument supplier throws. -/
def rBad : Rec := .mk "f" (some badArgs) (some store)

/-- A call of a name the global scope does not define. -/
def rMissing : Rec := .mk "nowhere" (some twoArgs) (some store)

/-- The same global scope and callees behind an engine that answers as the V8 API
does; calling `undefined` raises a script exception (empty result). -/
def v8 : Engine World Nat (Handle String) :=
  v8Engine engine.Get (fun h data w =>
    match h with
    | .undefined => ⟨none, w, []⟩
    | .function f => engine.Call f data w)

end Example

end CallQueue

namespace CallQueue

variable {W V F : Type}

/-! ## The loop, one step at a time -/

theorem next_nil : next ([] : List (CallInfo W V)) = (false, CallInfo.empty, []) := rfl

theorem next_cons (c : CallInfo W V) (q : List (CallInfo W V)) : next (c :: q) = (true, c, q) :=
  rfl

theorem drain_nil (E : Engine W V F) (n : Nat) (w : W) (tr : List (Event V F)) :
    drain E (n + 1) ⟨[], w, tr⟩ = (.returned, ⟨[], w, tr⟩) := rfl

theorem drain_cons_ok (E : Engine W V F) (n : Nat) (c : CallInfo W V) (q : List (CallInfo W V))
    (w : W) (tr : List (Event V F)) (h : (body E c w).raised = none) :
    drain E (n + 1) ⟨c :: q, w, tr⟩
      = drain E n ⟨q ++ (body E c w).appended, (body E c w).world, tr ++ (body E c w).events⟩ := by
  simp only [drain, next_cons, h]

theorem drain_cons_raise (E : Engine W V F) (n : Nat) (c : CallInfo W V)
    (q : List (CallInfo W V)) (w : W) (tr : List (Event V F)) (e : Exn)
    (h : (body E c w).raised = some e) :
    drain E (n + 1) ⟨c :: q, w, tr⟩
      = (.raised e, ⟨q ++ (body E c w).appended, (body E c w).world,
          tr ++ (body E c w).events⟩) := by
  simp only [drain, next_cons, h]

/-- Both branches of lines 93-96 call the callee with the supplied arguments. -/
theorem call_branch (E : Engine W V F) (f : F) (data : List V) (w : W) :
    (if data.length = 0 then E.Call f [] w else E.Call f data w) = E.Call f data w := by
  cases data <;> simp

theorem body_unresolved (E : Engine W V F) (cs : CallInfo W V) (w : W)
    (h : E.Get w cs.name = none) : body E cs w = ⟨none, w, [], [.lookup cs.name]⟩ := by
  simp only [body, h]

theorem body_no_supplier (E : Engine W V F) (cs : CallInfo W V) (w : W) (f : F)
    (h : E.Get w cs.name = some f) (ha : cs.args = none) :
    body E cs w = ⟨some .bad_function_call, w, [], [.lookup cs.name]⟩ := by
  simp only [body, h, ha]

theorem body_supplier_throws (E : Engine W V F) (cs : CallInfo W V) (w : W) (f : F)
    (sup : W → Effect (CallInfo W V) W (List V)) (e : Exn)
    (h : E.Get w cs.name = some f) (ha : cs.args = some sup) (hs : (sup w).result = .error e) :
    body E cs w = ⟨some e, (sup w).world, (sup w).appended,
      [.lookup cs.name, .supply cs.name]⟩ := by
  simp only [body, h, ha, hs]

theorem body_no_value (E : Engine W V F) (cs : CallInfo W V) (w : W) (f : F)
    (sup : W → Effect (CallInfo W V) W (List V)) (data : List V)
    (h : E.Get w cs.name = some f) (ha : cs.args = some sup) (hs : (sup w).result = .ok data)
    (hr : (E.Call f data (sup w).world).retn = none) :
    body E cs w = ⟨none, (E.Call f data (sup w).world).world,
      (sup w).appended ++ (E.Call f data (sup w).world).appended,
      [.lookup cs.name, .supply cs.name, .call cs.name f data none]⟩ := by
  simp only [body, h, ha, hs, call_branch, hr]

theorem body_no_callback (E : Engine W V F) (cs : CallInfo W V) (w : W) (f : F)
    (sup : W → Effect (CallInfo W V) W (List V)) (data : List V)
    (h : E.Get w cs.name = some f) (ha : cs.args = some sup) (hs : (sup w).result = .ok data)
    (hc : cs.callback = none) :
    body E cs w = ⟨none, (E.Call f data (sup w).world).world,
      (sup w).appended ++ (E.Call f data (sup w).world).appended,
      [.lookup cs.name, .supply cs.name,
       .call cs.name f data (E.Call f data (sup w).world).retn]⟩ := by
  simp only [body, h, ha, hs, call_branch, hc]
  cases (E.Call f data (sup w).world).retn <;> rfl

theorem body_callback (E : Engine W V F) (cs : CallInfo W V) (w : W) (f : F)
    (sup : W → Effect (CallInfo W V) W (List V)) (data : List V) (v : V)
    (cb : V → W → Effect (CallInfo W V) W Unit)
    (h : E.Get w cs.name = some f) (ha : cs.args = some sup) (hs : (sup w).result = .ok data)
    (hr : (E.Call f data (sup w).world).retn = some v) (hc : cs.callback = some cb) :
    body E cs w = ⟨(match (cb v (E.Call f data (sup w).world).world).result with
                    | .error e => some e
                    | .ok _ => none),
      (cb v (E.Call f data (sup w).world).world).world,
      (sup w).appended ++ (E.Call f data (sup w).world).appended
        ++ (cb v (E.Call f data (sup w).world).world).appended,
      [.lookup cs.name, .supply cs.name, .call cs.name f data (some v),
       .callback cs.name v]⟩ := by
  simp only [body, h, ha, hs, call_branch, hr, hc]

/-- While the records at the head of the queue run without raising, the drain
pops them one per iteration and goes on with what is behind them. -/
theorem drain_head_run (E : Engine W V F) (pre : List (CallInfo W V)) :
    ∀ (w : W) (tr : List (Event V F)) (rest : List (CallInfo W V)) (k : Nat),
      (runRecords E pre w).raised = none →
      drain E (pre.length + k) ⟨pre ++ rest, w, tr⟩
        = drain E k ⟨rest ++ (runRecords E pre w).appended, (runRecords E pre w).world,
            tr ++ (runRecords E pre w).events⟩ := by
  induction pre with
  | nil => intro w tr rest k _; simp [runRecords]
  | cons c pre ih =>
    intro w tr rest k h
    cases hb : (body E c w).raised with
    | some e => simp [runRecords, hb] at h
    | none =>
      simp only [runRecords, hb] at h ⊢
      have e1 : (c :: pre).length + k = (pre.length + k) + 1 := by simp; omega
      rw [e1, List.cons_append, drain_cons_ok E _ c _ w tr hb, List.append_assoc pre,
        ih _ _ _ _ h]
      simp only [List.append_assoc]

/-! ## Events -/

theorem lookups_append (a b : List (Event V F)) : lookups (a ++ b) = lookups a ++ lookups b := by
  induction a with
  | nil => rfl
  | cons e a ih => cases e <;> simp [lookups, ih]

/-- Every pass through the loop body makes exactly one lookup, of the name of the
popped record. -/
theorem lookups_body (E : Engine W V F) (c : CallInfo W V) (w : W) :
    lookups (body E c w).events = [c.name] := by
  cases h : E.Get w c.name with
  | none => rw [body_unresolved E c w h]; rfl
  | some f =>
    cases ha : c.args with
    | none => rw [body_no_supplier E c w f h ha]; rfl
    | some sup =>
      cases hs : (sup w).result with
      | error e => rw [body_supplier_throws E c w f sup e h ha hs]; rfl
      | ok data =>
        cases hc : c.callback with
        | none => rw [body_no_callback E c w f sup data h ha hs hc]; rfl
        | some cb =>
          cases hr : (E.Call f data (sup w).world).retn with
          | none => rw [body_no_value E c w f sup data h ha hs hr]; rfl
          | some v => rw [body_callback E c w f sup data v cb h ha hs hr hc]; rfl

theorem lookups_runRecords (E : Engine W V F) (rs : List (CallInfo W V)) :
    ∀ w : W, (runRecords E rs w).raised = none →
      lookups (runRecords E rs w).events = rs.map CallInfo.name := by
  induction rs with
  | nil => intro w _; rfl
  | cons c rs ih =>
    intro w h
    cases hb : (body E c w).raised with
    | some e => simp [runRecords, hb] at h
    | none =>
      simp only [runRecords, hb] at h ⊢
      rw [lookups_append, lookups_body, ih _ h]
      rfl

/-- The drain only ever adds events behind those already recorded. -/
theorem drain_trace (E : Engine W V F) (fuel : Nat) :
    ∀ (q : List (CallInfo W V)) (w : W) (tr : List (Event V F)),
      drain E fuel ⟨q, w, tr⟩
        = ((drain E fuel ⟨q, w, []⟩).1,
            ⟨(drain E fuel ⟨q, w, []⟩).2.queue, (drain E fuel ⟨q, w, []⟩).2.world,
             tr ++ (drain E fuel ⟨q, w, []⟩).2.trace⟩) := by
  induction fuel with
  | zero => intro q w tr; simp [drain]
  | succ n ih =>
    intro q w tr
    cases q with
    | nil => simp [drain_nil]
    | cons c q =>
      cases hb : (body E c w).raised with
      | some e =>
        rw [drain_cons_raise E n c q w tr e hb, drain_cons_raise E n c q w [] e hb]
        simp
      | none =>
        rw [drain_cons_ok E n c q w tr hb, drain_cons_ok E n c q w [] hb, ih _ _ (tr ++ _),
          ih _ _ ([] ++ _)]
        simp

/-- When the name resolves to a handle and the supplier returns, the loop body
runs the supplier and calls the handle on the supplied arguments. -/
theorem body_events_called (E : Engine W V F) (cs : CallInfo W V) (w : W) (f : F)
    (sup : W → Effect (CallInfo W V) W (List V)) (data : List V)
    (h : E.Get w cs.name = some f) (ha : cs.args = some sup) (hs : (sup w).result = .ok data) :
    ∃ more, (body E cs w).events = .lookup cs.name :: .supply cs.name
      :: .call cs.name f data (E.Call f data (sup w).world).retn :: more := by
  cases hcb : cs.callback with
  | none => exact ⟨[], congrArg Step.events (body_no_callback E cs w f sup data h ha hs hcb)⟩
  | some cb =>
    cases hr : (E.Call f data (sup w).world).retn with
    | none => exact ⟨[], congrArg Step.events (body_no_value E cs w f sup data h ha hs hr)⟩
    | some v =>
      exact ⟨[.callback cs.name v],
        congrArg Step.events (body_callback E cs w f sup data v cb h ha hs hr hcb)⟩

/-- The events of the first iteration come first in the events of the drain. -/
theorem drain_cons_trace (E : Engine W V F) (k : Nat) (c : CallInfo W V)
    (q : List (CallInfo W V)) (w : W) (tr : List (Event V F)) :
    ∃ t, (drain E (k + 1) ⟨c :: q, w, tr⟩).2.trace = tr ++ (body E c w).events ++ t := by
  cases hb : (body E c w).raised with
  | some e => exact ⟨[], by rw [drain_cons_raise E k c q w tr e hb]; simp⟩
  | none =>
    rw [drain_cons_ok E k c q w tr hb, drain_trace]
    exact ⟨_, rfl⟩

/-! ## `append` -/

/-- C8: each of the three `append` overloads is total and leaves the queue equal
to the previous contents, unchanged and in the same order, followed by exactly
one new record, which carries the given name, the given argument supplier
(absent when none was passed) and the given result callback (absent when none
was passed).  `append` takes and gives queue contents only: it has no engine and
no world to act on, so it runs no lookup, supplier, callee or callback. -/
theorem append_inserts_at_tail (q : List (CallInfo W V)) (name : String)
    (args : W → Effect (CallInfo W V) W (List V))
    (args' : Option (W → Effect (CallInfo W V) W (List V)))
    (callback' : Option (V → W → Effect (CallInfo W V) W Unit)) :
    (∃ r, append q name = q ++ [r] ∧ r.name = name ∧ r.args = none ∧ r.callback = none) ∧
    (∃ r, append₂ q name args = q ++ [r] ∧ r.name = name ∧ r.args = some args
        ∧ r.callback = none) ∧
    (∃ r, append₃ q name args' callback' = q ++ [r] ∧ r.name = name ∧ r.args = args'
        ∧ r.callback = callback') :=
  ⟨⟨_, rfl, rfl, rfl, rfl⟩, ⟨_, rfl, rfl, rfl, rfl⟩, ⟨_, rfl, rfl, rfl, rfl⟩⟩

/-! ## A record without an argument supplier -/

/-- C2 (the code's behaviour): a record appended with the name-only overload
makes the drain raise `std::bad_function_call` as soon as it is popped with its
name resolving (the records queued before it having run without ending the
pass); its callee is never invoked, the lookup being the only event for it. -/
theorem drain_name_only_raises (E : Engine W V F) (q : List (CallInfo W V)) (name : String)
    (f : F) (w : W) (tr : List (Event V F)) (k : Nat)
    (hq : (runRecords E q w).raised = none)
    (h : E.Get (runRecords E q w).world name = some f) :
    drain E (q.length + (k + 1)) ⟨append q name, w, tr⟩
      = (.raised .bad_function_call,
          ⟨(runRecords E q w).appended, (runRecords E q w).world,
           tr ++ (runRecords E q w).events ++ [.lookup name]⟩) := by
  have hb := body_no_supplier E (CallInfo.mk name none none) (runRecords E q w).world f h rfl
  rw [append, drain_head_run E q w tr _ (k + 1) hq, List.cons_append,
    drain_cons_raise E k _ _ _ _ .bad_function_call (by rw [hb]), hb]
  simp [CallInfo.name]

theorem drain_name_only_raises_witness :
    drain Example.engine 2 ⟨append [Example.rF] "g", Example.w₀, []⟩
      = (.raised .bad_function_call, ⟨[], ⟨["f"], some 12⟩,
          [.lookup "f", .supply "f", .call "f" "f" [5, 7] (some 12), .callback "f" 12,
           .lookup "g"]⟩) :=
  drain_name_only_raises Example.engine [Example.rF] "g" "g" Example.w₀ [] 0 rfl rfl

/-! ## The mutex -/

/-- C9 (the code's behaviour): every `append` makes its `push` with the mutex
held, but `next` makes its accesses to `m_queue` (`empty()`, and `front()` and
`pop()` on a non-empty queue) without the mutex, whatever the queue holds. -/
theorem next_accesses_unguarded (q : List (CallInfo W V)) :
    allGuarded false appendAccesses = true ∧ allGuarded false (nextAccesses q) = false := by
  cases q <;> exact ⟨rfl, rfl⟩

/-! ## The result callback -/

/-- C6: when the drain pops a record whose name resolves and whose supplier
returns, and the callee invocation produces a value `v` while the record has a
result callback, the callback is run exactly once, on exactly `v` (one callback
event, and the pass goes on from the callback's effect, or ends with the
callback's exception); when the invocation produces no value, or the record has
no callback, no callback is run and the pass goes on. -/
theorem result_callback_wiring (E : Engine W V F) (cs : CallInfo W V)
    (q : List (CallInfo W V)) (w : W) (tr : List (Event V F)) (k : Nat) (f : F)
    (sup : W → Effect (CallInfo W V) W (List V)) (data : List V)
    (h : E.Get w cs.name = some f) (ha : cs.args = some sup)
    (hs : (sup w).result = .ok data) :
    (∀ v cb, (E.Call f data (sup w).world).retn = some v → cs.callback = some cb →
      drain E (k + 1) ⟨cs :: q, w, tr⟩
        = match (cb v (E.Call f data (sup w).world).world).result with
          | .error e =>
            (.raised e,
              ⟨q ++ ((sup w).appended ++ (E.Call f data (sup w).world).appended
                  ++ (cb v (E.Call f data (sup w).world).world).appended),
               (cb v (E.Call f data (sup w).world).world).world,
               tr ++ [.lookup cs.name, .supply cs.name, .call cs.name f data (some v),
                      .callback cs.name v]⟩)
          | .ok _ =>
            drain E k
              ⟨q ++ ((sup w).appended ++ (E.Call f data (sup w).world).appended
                  ++ (cb v (E.Call f data (sup w).world).world).appended),
               (cb v (E.Call f data (sup w).world).world).world,
               tr ++ [.lookup cs.name, .supply cs.name, .call cs.name f data (some v),
                      .callback cs.name v]⟩) ∧
    ((E.Call f data (sup w).world).retn = none ∨ cs.callback = none →
      drain E (k + 1) ⟨cs :: q, w, tr⟩
        = drain E k
            ⟨q ++ ((sup w).appended ++ (E.Call f data (sup w).world).appended),
             (E.Call f data (sup w).world).world,
             tr ++ [.lookup cs.name, .supply cs.name,
                    .call cs.name f data (E.Call f data (sup w).world).retn]⟩) := by
  constructor
  · intro v cb hr hc
    have hb := body_callback E cs w f sup data v cb h ha hs hr hc
    cases hres : (cb v (E.Call f data (sup w).world).world).result with
    | error e =>
      rw [drain_cons_raise E k cs q w tr e (by rw [hb]; simp only [hres]), hb]
    | ok u =>
      rw [drain_cons_ok E k cs q w tr (by rw [hb]; simp only [hres]), hb]
  · intro hn
    rcases hn with hr | hc
    · have hb := body_no_value E cs w f sup data h ha hs hr
      rw [drain_cons_ok E k cs q w tr (by rw [hb]), hb, hr]
    · have hb := body_no_callback E cs w f sup data h ha hs hc
      rw [drain_cons_ok E k cs q w tr (by rw [hb]), hb]

theorem result_callback_wiring_witness :
    drain Example.engine 2 ⟨[Example.rF], Example.w₀, []⟩
      = (.returned, ⟨[], ⟨["f"], some 12⟩,
          [.lookup "f", .supply "f", .call "f" "f" [5, 7] (some 12), .callback "f" 12]⟩) := by
  have h := (result_callback_wiring Example.engine Example.rF [] Example.w₀ [] 1 "f"
    Example.twoArgs [5, 7] rfl rfl rfl).1 12 Example.store rfl rfl
  rw [h]
  rfl

/-! ## Exceptions and empty results -/

/-- C7: when the records before `rk` have run without ending the pass and the
argument supplier of `rk` (whose name resolves) throws `e` when invoked, the
drain ends with `e` for its caller, whatever fuel is left; the last events are
the lookup and the supplier of `rk`, so neither its callee nor its callback is
invoked; the records up to `rk` are no longer in the queue, and the records
behind `rk` are still there, in order, followed by whatever was appended
meanwhile. -/
theorem supplier_failure_aborts (E : Engine W V F) (pre : List (CallInfo W V))
    (rk : CallInfo W V) (post : List (CallInfo W V)) (w : W) (tr : List (Event V F)) (k : Nat)
    (f : F) (sup : W → Effect (CallInfo W V) W (List V)) (e : Exn)
    (hpre : (runRecords E pre w).raised = none)
    (h : E.Get (runRecords E pre w).world rk.name = some f) (ha : rk.args = some sup)
    (hs : (sup (runRecords E pre w).world).result = .error e) :
    drain E (pre.length + (k + 1)) ⟨pre ++ rk :: post, w, tr⟩
      = (.raised e,
          ⟨post ++ (runRecords E pre w).appended ++ (sup (runRecords E pre w).world).appended,
           (sup (runRecords E pre w).world).world,
           tr ++ (runRecords E pre w).events ++ [.lookup rk.name, .supply rk.name]⟩) := by
  have hb := body_supplier_throws E rk _ f sup e h ha hs
  rw [drain_head_run E pre w tr (rk :: post) (k + 1) hpre, List.cons_append,
    drain_cons_raise E k rk _ _ _ e (by rw [hb]), hb]

theorem supplier_failure_aborts_witness :
    drain Example.engine 2 ⟨[Example.rF, Example.rBad, Example.rG], Example.w₀, []⟩
      = (.raised (.thrown "args"), ⟨[Example.rG], ⟨["f"], some 12⟩,
          [.lookup "f", .supply "f", .call "f" "f" [5, 7] (some 12), .callback "f" 12,
           .lookup "f", .supply "f"]⟩) :=
  supplier_failure_aborts Example.engine [Example.rF] Example.rBad [Example.rG] Example.w₀ [] 0
    "f" Example.badArgs (.thrown "args") rfl rfl rfl rfl

/-- C1, as the code behaves: with `f`, `boom`, `g` queued, all three names
resolving and the call of `boom` yielding no value, the drain does not stop at
`boom`: it returns normally, `g` has been invoked too, and the queue is empty. -/
theorem fail_fast_counterexample :
    drain Example.engine 4 ⟨[Example.rF, Example.rBoom, Example.rG], Example.w₀, []⟩
      = (.returned, ⟨[], ⟨["f", "boom", "g"], some 12⟩,
          [.lookup "f", .supply "f", .call "f" "f" [5, 7] (some 12), .callback "f" 12,
           .lookup "boom", .supply "boom", .call "boom" "boom" [] none,
           .lookup "g", .supply "g", .call "g" "g" [5, 7] (some 12)]⟩) := by
  rfl

/-- C1, amended: when the records before `rk` have run without ending the pass
and the invocation of the callee of `rk` yields no value, the drain raises
nothing and does not stop: it runs no callback for `rk` and goes on, in the same
pass, with the records behind `rk` at the head of the queue, in their order. -/
theorem empty_result_continues (E : Engine W V F) (pre : List (CallInfo W V))
    (rk : CallInfo W V) (post : List (CallInfo W V)) (w : W) (tr : List (Event V F)) (k : Nat)
    (f : F) (sup : W → Effect (CallInfo W V) W (List V)) (data : List V)
    (hpre : (runRecords E pre w).raised = none)
    (h : E.Get (runRecords E pre w).world rk.name = some f) (ha : rk.args = some sup)
    (hs : (sup (runRecords E pre w).world).result = .ok data)
    (hr : (E.Call f data (sup (runRecords E pre w).world).world).retn = none) :
    drain E (pre.length + (k + 1)) ⟨pre ++ rk :: post, w, tr⟩
      = drain E k
          ⟨post ++ (runRecords E pre w).appended ++ ((sup (runRecords E pre w).world).appended
              ++ (E.Call f data (sup (runRecords E pre w).world).world).appended),
           (E.Call f data (sup (runRecords E pre w).world).world).world,
           tr ++ (runRecords E pre w).events
              ++ [.lookup rk.name, .supply rk.name, .call rk.name f data none]⟩ := by
  have hb := body_no_value E rk _ f sup data h ha hs hr
  rw [drain_head_run E pre w tr (rk :: post) (k + 1) hpre, List.cons_append,
    drain_cons_ok E k rk _ _ _ (by rw [hb]), hb]

theorem empty_result_continues_witness :
    drain Example.engine 4 ⟨[Example.rF, Example.rBoom, Example.rG], Example.w₀, []⟩
      = drain Example.engine 2 ⟨[Example.rG], ⟨["f", "boom"], some 12⟩,
          [.lookup "f", .supply "f", .call "f" "f" [5, 7] (some 12), .callback "f" 12,
           .lookup "boom", .supply "boom", .call "boom" "boom" [] none]⟩ :=
  empty_result_continues Example.engine [Example.rF] Example.rBoom [Example.rG] Example.w₀ [] 2
    "boom" Example.noArgs [] rfl rfl rfl rfl rfl

/-! ## Order -/

/-- C3 (the code's behaviour): with an engine that answers as the V8 API does,
a record whose name the global scope does not define when it is popped is not
skipped, the handle of line 84 not being empty.  Without an argument supplier the
record makes the drain raise `std::bad_function_call`, the records behind it
staying queued; with a supplier that returns, the supplier is run and a call of
`undefined` is made. -/
theorem missing_callee_not_skipped {Fn : Type} (scope : W → String → Option Fn)
    (call : Handle Fn → List V → W → CallResult (CallInfo W V) W V)
    (r : CallInfo W V) (q : List (CallInfo W V)) (w : W) (tr : List (Event V (Handle Fn)))
    (k : Nat) (hmiss : scope w r.name = none) :
    (r.args = none →
      drain (v8Engine scope call) (k + 1) ⟨r :: q, w, tr⟩
        = (.raised .bad_function_call, ⟨q, w, tr ++ [.lookup r.name]⟩)) ∧
    (∀ sup data, r.args = some sup → (sup w).result = .ok data →
      ∃ more, (drain (v8Engine scope call) (k + 1) ⟨r :: q, w, tr⟩).2.trace
        = tr ++ .lookup r.name :: .supply r.name
            :: .call r.name .undefined data (call .undefined data (sup w).world).retn
            :: more) := by
  have h : (v8Engine scope call).Get w r.name = some Handle.undefined := by
    simp only [v8Engine, hmiss]
  constructor
  · intro ha
    have hb := body_no_supplier (v8Engine scope call) r w _ h ha
    rw [drain_cons_raise _ k r q w tr .bad_function_call (by rw [hb]), hb]
    simp
  · intro sup data ha hs
    obtain ⟨more, hm⟩ := body_events_called (v8Engine scope call) r w _ sup data h ha hs
    obtain ⟨t, ht⟩ := drain_cons_trace (v8Engine scope call) k r q w tr
    refine ⟨more ++ t, ?_⟩
    rw [ht, hm]
    simp [v8Engine]

theorem missing_callee_not_skipped_witness :
    drain Example.v8 3 ⟨[CallInfo.mk "nowhere" none none, Example.rG], Example.w₀, []⟩
        = (.raised .bad_function_call, ⟨[Example.rG], Example.w₀, [.lookup "nowhere"]⟩) ∧
      drain Example.v8 3 ⟨[Example.rMissing, Example.rG], Example.w₀, []⟩
        = (.returned, ⟨[], ⟨["g"], none⟩,
            [.lookup "nowhere", .supply "nowhere", .call "nowhere" .undefined [5, 7] none,
             .lookup "g", .supply "g", .call "g" (.function "g") [5, 7] (some 12)]⟩) :=
  ⟨(missing_callee_not_skipped Example.engine.Get _ (CallInfo.mk "nowhere" none none)
      [Example.rG] Example.w₀ [] 2 rfl).1 rfl, rfl⟩

/-! ## Records appended during the drain -/

/-- C5, as the code behaves: `spawn` and then a call whose supplier throws are
queued; while the drain runs `spawn`, its callee appends a call of `g`, whose name
resolves.  The supplier of the record ahead of it then throws: the drain ends
with that exception, `g` has not been invoked, and the new record is left in the
queue for the next drain. -/
theorem reentrant_append_counterexample :
    drain Example.engine 5 ⟨[Example.rSpawn, Example.rBad], Example.w₀, []⟩
      = (.raised (.thrown "args"), ⟨[Example.rG], ⟨["spawn"], none⟩,
          [.lookup "spawn", .supply "spawn", .call "spawn" "spawn" [] (some 0),
           .lookup "f", .supply "f"]⟩) := by
  rfl

/-- C5, amended: let the step of the drain for record `c` end normally, its
supplier, callee or callback having appended `r'` (behind `a₁`, before `a₂`).  If
the records then queued ahead of `r'` run without ending the pass, the name of
`r'` resolves when it is popped and its supplier returns `data`, then the same
drain, given fuel for it, pops those records in order and then `r'`, and invokes
the callee of `r'` on `data`; after that step `r'` is no longer queued, and the
drain goes on (or ends with the exception of the callback of `r'`). -/
theorem reentrant_append_same_pass (E : Engine W V F) (c : CallInfo W V)
    (q : List (CallInfo W V)) (w : W) (tr : List (Event V F))
    (a₁ : List (CallInfo W V)) (r' : CallInfo W V) (a₂ : List (CallInfo W V)) (k : Nat)
    (f : F) (sup : W → Effect (CallInfo W V) W (List V)) (data : List V)
    (hc : (body E c w).raised = none)
    (happ : (body E c w).appended = a₁ ++ r' :: a₂)
    (hahead : (runRecords E (q ++ a₁) (body E c w).world).raised = none)
    (h : E.Get (runRecords E (q ++ a₁) (body E c w).world).world r'.name = some f)
    (ha : r'.args = some sup)
    (hs : (sup (runRecords E (q ++ a₁) (body E c w).world).world).result = .ok data) :
    let R := runRecords E (q ++ a₁) (body E c w).world
    let B := body E r' R.world
    let st : State W V F :=
      ⟨a₂ ++ R.appended ++ B.appended, B.world, tr ++ (body E c w).events ++ R.events ++ B.events⟩
    drain E ((q ++ a₁).length + (k + 2)) ⟨c :: q, w, tr⟩
        = (match B.raised with
           | some e => (.raised e, st)
           | none => drain E k st) ∧
      lookups R.events = (q ++ a₁).map CallInfo.name ∧
      ∃ more, B.events = .lookup r'.name :: .supply r'.name
        :: .call r'.name f data (E.Call f data (sup R.world).world).retn :: more := by
  intro R B st
  refine ⟨?_, lookups_runRecords E _ _ hahead, ?_⟩
  · have e1 : (q ++ a₁).length + (k + 2) = ((q ++ a₁).length + (k + 1)) + 1 := by omega
    rw [e1, drain_cons_ok E _ c q w tr hc, happ, ← List.append_assoc,
      drain_head_run E (q ++ a₁) _ _ (r' :: a₂) (k + 1) hahead, List.cons_append]
    cases hB : B.raised with
    | some e => rw [drain_cons_raise E k r' _ _ _ e hB]
    | none => rw [drain_cons_ok E k r' _ _ _ hB]
  · cases hcb : r'.callback with
    | none => exact ⟨[], congrArg Step.events (body_no_callback E r' _ f sup data h ha hs hcb)⟩
    | some cb =>
      cases hr : (E.Call f data (sup R.world).world).retn with
      | none => exact ⟨[], congrArg Step.events (body_no_value E r' _ f sup data h ha hs hr)⟩
      | some v =>
        exact ⟨[.callback r'.name v],
          congrArg Step.events (body_callback E r' _ f sup data v cb h ha hs hr hcb)⟩

theorem reentrant_append_same_pass_witness :
    drain Example.engine 4 ⟨[Example.rSpawn, Example.rF], Example.w₀, []⟩
      = drain Example.engine 1 ⟨[], ⟨["spawn", "f", "g"], some 12⟩,
          [.lookup "spawn", .supply "spawn", .call "spawn" "spawn" [] (some 0),
           .lookup "f", .supply "f", .call "f" "f" [5, 7] (some 12), .callback "f" 12,
           .lookup "g", .supply "g", .call "g" "g" [5, 7] (some 12)]⟩ :=
  (reentrant_append_same_pass Example.engine Example.rSpawn [Example.rF] Example.w₀ []
    [] Example.rG [] 1 "g" Example.twoArgs [5, 7] rfl rfl rfl rfl rfl rfl).1

end CallQueue
